import Mathlib

/-
Verification development for the react-indexed-db wrapper library.

The embedding models the two source modules:
  - indexed-db.ts   : openDatabase, defaultMigrationBehaviour, applyMigrations,
                      CreateObjectStore, and the DBOperations CRUD facade.
  - indexed-hooks.ts: the process-wide configuration singleton, initDB and
                      useIndexedDB.

Conventions of the embedding:
  - the mutable IDBDatabase schema handle becomes an explicit `Database` value
    threaded through each operation;
  - JavaScript null/undefined becomes `Option`;
  - thrown errors become an explicit `Option MigrationError` component
    (the catch handler of CreateObjectStore is modelled by
    `createObjectStoreUpgrade`);
  - the observable callback behaviour of the promise-based facade operations
    is modelled as a list of events (`Ev`), in the order the handlers fire in
    the happy-path schedule of the host engine (synchronous body, then request
    success, then transaction completion).
-/

/-- Index descriptor, from interface ObjectStoreSchema of indexed-hooks.ts
(`options` is modelled by its declared `unique` field). -/
structure ObjectStoreSchema where
  name : String
  keypath : String
  unique : Bool
deriving DecidableEq

/-- Key configuration of a store, from the `storeConfig` field of
interface ObjectStoreMeta of indexed-hooks.ts. -/
structure StoreConfig where
  keyPath : String
  autoIncrement : Bool
deriving DecidableEq

/-- Store schema descriptor, from interface ObjectStoreMeta of indexed-hooks.ts. -/
structure ObjectStoreMeta where
  store : String
  storeConfig : StoreConfig
  storeSchema : List ObjectStoreSchema
deriving DecidableEq

/-- One index of a created object store, as held by the database. -/
structure StoreIndex where
  name : String
  keypath : String
  unique : Bool
deriving DecidableEq

/-- One created object store: its name, key configuration and indexes. -/
structure ObjectStore where
  name : String
  config : StoreConfig
  indexes : List StoreIndex
deriving DecidableEq

/-- The schema-level state of an IDBDatabase handle: its object stores. -/
structure Database where
  stores : List ObjectStore
deriving DecidableEq

/-- database.objectStoreNames. -/
def Database.objectStoreNames (db : Database) : List String :=
  db.stores.map ObjectStore.name

/-- The store a meta descriptor declares: the store created by
createObjectStore followed by one createIndex per schema entry. -/
def storeOfMeta (m : ObjectStoreMeta) : ObjectStore :=
  { name := m.store
    config := m.storeConfig
    indexes := m.storeSchema.map fun s => { name := s.name, keypath := s.keypath, unique := s.unique } }

/-- The body of the forEach of defaultMigrationBehaviour (indexed-db.ts,
lines 35-42): if the store name is absent, createObjectStore with the key
configuration, then createIndex for every declared index. -/
def dmbStep (database : Database) (storeSchema : ObjectStoreMeta) : Database :=
  if storeSchema.store ∈ database.objectStoreNames then database
  else
    let objectStore : ObjectStore :=
      storeSchema.storeSchema.foldl
        (fun os schema =>
          { os with indexes := os.indexes ++ [{ name := schema.name, keypath := schema.keypath, unique := schema.unique }] })
        { name := storeSchema.store, config := storeSchema.storeConfig, indexes := [] }
    { stores := database.stores ++ [objectStore] }

/-- defaultMigrationBehaviour (indexed-db.ts, lines 34-45): walk the declared
store schemas, create each missing store with its indexes, return true. -/
def defaultMigrationBehaviour (database : Database) (storeSchemas : List ObjectStoreMeta) :
    Database × Bool :=
  (storeSchemas.foldl dmbStep database, true)

/-- A migration descriptor, from interface IDBMigration of indexed-hooks.ts.
The `up` callback mutates the database handle, so it is modelled as a state
transformer returning the new schema state and its boolean success flag; a
missing (falsy) implementation is `none`. -/
structure IDBMigration where
  toVersion : Nat
  up : Option (Database → List ObjectStoreMeta →
        (Database → List ObjectStoreMeta → Database × Bool) → Database × Bool)

/-- The errors thrown by applyMigrations (indexed-db.ts, lines 47-69). -/
inductive MigrationError
  | newVersionNotSet
  | missingMigration (v : Nat)
  | upNotImplemented (v : Nat)
  | migrationFailed (v : Nat)
deriving DecidableEq

/-- The version a migration error reports, when it reports one. -/
def MigrationError.version : MigrationError → Option Nat
  | .newVersionNotSet => none
  | .missingMigration v => some v
  | .upNotImplemented v => some v
  | .migrationFailed v => some v

/-- The message text of each thrown Error of applyMigrations. -/
def MigrationError.message : MigrationError → String
  | .newVersionNotSet => "New version of indexedDb hasn\x27t been set"
  | .missingMigration v => "Db configuration should contain a migration for version " ++ toString v
  | .upNotImplemented v => "Up callback hasn\x27t been implemented for migration with version " ++ toString v
  | .migrationFailed v => "Migration for version " ++ toString v ++ " has failed"

/-- The body of the for loop of applyMigrations (indexed-db.ts, lines 54-68).
The loop runs nextVersion from oldVersion + 1 while nextVersion < newVersion + 1,
so it performs exactly newVersion + 1 - nextVersion iterations from a given
entry point; `fuel` is that iteration count, making the recursion structural.
Each iteration finds the migration targeting nextVersion, requires its up
implementation, runs it, and stops at the first thrown error.  The result is
the list of versions whose up callback was invoked (in invocation order),
the final database state, and the thrown error if any. -/
def applyMigrationsLoop (storeSchemas : List ObjectStoreMeta)
    (migrations : List IDBMigration) :
    (fuel : Nat) → (nextVersion : Nat) → Database →
      List Nat × Database × Option MigrationError
  | 0, _, db => ([], db, none)
  | fuel + 1, nextVersion, db =>
    match migrations.find? (fun x => x.toVersion == nextVersion) with
    | none => ([], db, some (MigrationError.missingMigration nextVersion))
    | some migration =>
      match migration.up with
      | none => ([], db, some (MigrationError.upNotImplemented nextVersion))
      | some up =>
        let r := up db storeSchemas defaultMigrationBehaviour
        if r.2 then
          let rest := applyMigrationsLoop storeSchemas migrations fuel (nextVersion + 1) r.1
          (nextVersion :: rest.1, rest.2)
        else
          ([nextVersion], r.1, some (MigrationError.migrationFailed nextVersion))

/-- The for loop of applyMigrations entered at `nextVersion` with bound
`newVersion`: newVersion + 1 - nextVersion iterations remain. -/
def applyMigrationsFrom (db : Database) (storeSchemas : List ObjectStoreMeta)
    (migrations : List IDBMigration) (nextVersion newVersion : Nat) :
    List Nat × Database × Option MigrationError :=
  applyMigrationsLoop storeSchemas migrations (newVersion + 1 - nextVersion) nextVersion db

/-- The upgrade event payload: event.oldVersion and event.newVersion
(the latter nullable). -/
structure VersionChangeEvent where
  oldVersion : Nat
  newVersion : Option Nat
deriving DecidableEq

/-- applyMigrations (indexed-db.ts, lines 47-69): reject a null new version,
otherwise run the loop from oldVersion + 1. -/
def applyMigrations (event : VersionChangeEvent) (database : Database)
    (storeSchemas : List ObjectStoreMeta) (migrations : List IDBMigration) :
    List Nat × Database × Option MigrationError :=
  match event.newVersion with
  | none => ([], database, some MigrationError.newVersionNotSet)
  | some newVersion =>
    applyMigrationsFrom database storeSchemas migrations (event.oldVersion + 1) newVersion

/-- Outcome of the onupgradeneeded handler of CreateObjectStore: the promise
either resolves, or rejects with the thrown error, with the aborted flag
recording whether request.transaction.abort() was called. -/
inductive InitResult
  | resolved (db : Database)
  | rejected (err : MigrationError) (aborted : Bool)
deriving DecidableEq

/-- Whether the initialization promise resolved. -/
def InitResult.isResolved : InitResult → Bool
  | .resolved _ => true
  | .rejected _ _ => false

/-- The onupgradeneeded handler of CreateObjectStore (indexed-db.ts, lines
75-92): with a migration list, applyMigrations inside try/catch — the catch
rejects with the thrown error and aborts the upgrade transaction; without
one, defaultMigrationBehaviour runs once.  The first component is the list
of migration versions whose up callback was invoked. -/
def createObjectStoreUpgrade (event : VersionChangeEvent) (database : Database)
    (storeSchemas : List ObjectStoreMeta) (migrations : Option (List IDBMigration)) :
    List Nat × InitResult :=
  match migrations with
  | some migs =>
    let r := applyMigrations event database storeSchemas migs
    match r.2.2 with
    | some e => (r.1, InitResult.rejected e true)
    | none => (r.1, InitResult.resolved r.2.1)
  | none => ([], InitResult.resolved (defaultMigrationBehaviour database storeSchemas).1)

/-- Unfolding of one loop iteration: no migration targets the version. -/
theorem applyMigrationsLoop_succ_missing {ss : List ObjectStoreMeta}
    {migs : List IDBMigration} {n next : Nat} {db : Database}
    (hfind : migs.find? (fun x => x.toVersion == next) = none) :
    applyMigrationsLoop ss migs (n + 1) next db
      = ([], db, some (MigrationError.missingMigration next)) := by
  simp [applyMigrationsLoop, hfind]

/-- Unfolding of one loop iteration: the found migration lacks its up step. -/
theorem applyMigrationsLoop_succ_noUp {ss : List ObjectStoreMeta}
    {migs : List IDBMigration} {n next : Nat} {db : Database} {migration : IDBMigration}
    (hfind : migs.find? (fun x => x.toVersion == next) = some migration)
    (hup : migration.up = none) :
    applyMigrationsLoop ss migs (n + 1) next db
      = ([], db, some (MigrationError.upNotImplemented next)) := by
  simp [applyMigrationsLoop, hfind, hup]

/-- Unfolding of one loop iteration: the up step reports failure. -/
theorem applyMigrationsLoop_succ_failed {ss : List ObjectStoreMeta}
    {migs : List IDBMigration} {n next : Nat} {db : Database} {migration : IDBMigration}
    {up : Database → List ObjectStoreMeta →
      (Database → List ObjectStoreMeta → Database × Bool) → Database × Bool}
    (hfind : migs.find? (fun x => x.toVersion == next) = some migration)
    (hup : migration.up = some up)
    (hr : (up db ss defaultMigrationBehaviour).2 = false) :
    applyMigrationsLoop ss migs (n + 1) next db
      = ([next], (up db ss defaultMigrationBehaviour).1,
          some (MigrationError.migrationFailed next)) := by
  simp [applyMigrationsLoop, hfind, hup, hr]

/-- Unfolding of one loop iteration: the up step succeeds and the loop
continues at the next version on the updated database. -/
theorem applyMigrationsLoop_succ_ok {ss : List ObjectStoreMeta}
    {migs : List IDBMigration} {n next : Nat} {db : Database} {migration : IDBMigration}
    {up : Database → List ObjectStoreMeta →
      (Database → List ObjectStoreMeta → Database × Bool) → Database × Bool}
    (hfind : migs.find? (fun x => x.toVersion == next) = some migration)
    (hup : migration.up = some up)
    (hr : (up db ss defaultMigrationBehaviour).2 = true) :
    applyMigrationsLoop ss migs (n + 1) next db
      = (next :: (applyMigrationsLoop ss migs n (next + 1) (up db ss defaultMigrationBehaviour).1).1,
         (applyMigrationsLoop ss migs n (next + 1) (up db ss defaultMigrationBehaviour).1).2) := by
  simp [applyMigrationsLoop, hfind, hup, hr]

/-- Combined behaviour of the migration loop: on success the invoked versions
are exactly the `fuel` consecutive integers from the entry version; on a
thrown error the error names a version at or past the entry version, and no
later version was invoked. -/
theorem applyMigrationsLoop_spec (ss : List ObjectStoreMeta) (migs : List IDBMigration) :
    ∀ (fuel nextVersion : Nat) (db : Database),
      ((applyMigrationsLoop ss migs fuel nextVersion db).2.2 = none →
        (applyMigrationsLoop ss migs fuel nextVersion db).1 = List.range' nextVersion fuel)
      ∧ (∀ e, (applyMigrationsLoop ss migs fuel nextVersion db).2.2 = some e →
          ∃ v, e.version = some v ∧ nextVersion ≤ v ∧
            ∀ w ∈ (applyMigrationsLoop ss migs fuel nextVersion db).1, w ≤ v) := by
  intro fuel
  induction fuel with
  | zero =>
    intro next db
    refine ⟨fun _ => rfl, fun e he => ?_⟩
    simp [applyMigrationsLoop] at he
  | succ n ih =>
    intro next db
    cases hfind : migs.find? (fun x => x.toVersion == next) with
    | none =>
      rw [applyMigrationsLoop_succ_missing hfind]
      refine ⟨fun h => by simp at h, fun e he => ?_⟩
      simp only [Option.some_inj] at he
      subst he
      exact ⟨next, rfl, Nat.le_refl next, by simp⟩
    | some migration =>
      cases hup : migration.up with
      | none =>
        rw [applyMigrationsLoop_succ_noUp hfind hup]
        refine ⟨fun h => by simp at h, fun e he => ?_⟩
        simp only [Option.some_inj] at he
        subst he
        exact ⟨next, rfl, Nat.le_refl next, by simp⟩
      | some up =>
        cases hr : (up db ss defaultMigrationBehaviour).2 with
        | false =>
          rw [applyMigrationsLoop_succ_failed hfind hup hr]
          refine ⟨fun h => by simp at h, fun e he => ?_⟩
          simp only [Option.some_inj] at he
          subst he
          refine ⟨next, rfl, Nat.le_refl next, ?_⟩
          intro w hw
          simp only [List.mem_singleton] at hw
          omega
        | true =>
          rw [applyMigrationsLoop_succ_ok hfind hup hr]
          constructor
          · intro h
            have h1 := (ih (next + 1) (up db ss defaultMigrationBehaviour).1).1 h
            show next :: (applyMigrationsLoop ss migs n (next + 1)
                (up db ss defaultMigrationBehaviour).1).1 = _
            rw [List.range'_succ, h1]
          · intro e he
            obtain ⟨v, hv, hle, hbound⟩ :=
              (ih (next + 1) (up db ss defaultMigrationBehaviour).1).2 e he
            refine ⟨v, hv, by omega, ?_⟩
            intro w hw
            rcases List.mem_cons.mp hw with h | h
            · omega
            · exact hbound w h

/-- C1: during an upgrade from oldVersion to newVersion with a migration list
supplied, when initialization resolves, the migrations whose up callback was
invoked are exactly those targeting the versions in the half-open range
(oldVersion, newVersion], each exactly once, in strictly increasing version
order.  Initializing at version N from scratch is the instance oldVersion = 0,
where the invoked versions are 1, 2, ..., N in order. -/
theorem upgrade_invokes_migrations_in_range_once_increasing
    (event : VersionChangeEvent) (db : Database) (storeSchemas : List ObjectStoreMeta)
    (migrations : List IDBMigration) (nv : Nat)
    (hnv : event.newVersion = some nv)
    (hres : (createObjectStoreUpgrade event db storeSchemas (some migrations)).2.isResolved = true) :
    (createObjectStoreUpgrade event db storeSchemas (some migrations)).1
        = List.range' (event.oldVersion + 1) (nv - event.oldVersion)
    ∧ (createObjectStoreUpgrade event db storeSchemas (some migrations)).1.Nodup
    ∧ List.Pairwise (· < ·) (createObjectStoreUpgrade event db storeSchemas (some migrations)).1
    ∧ ∀ v, v ∈ (createObjectStoreUpgrade event db storeSchemas (some migrations)).1
        ↔ (event.oldVersion < v ∧ v ≤ nv) := by
  cases happ : (applyMigrations event db storeSchemas migrations).2.2 with
  | some e =>
    exfalso
    simp only [createObjectStoreUpgrade, happ, InitResult.isResolved] at hres
    exact Bool.noConfusion hres
  | none =>
    have htr : (createObjectStoreUpgrade event db storeSchemas (some migrations)).1
        = (applyMigrations event db storeSchemas migrations).1 := by
      simp only [createObjectStoreUpgrade, happ]
    have happm : applyMigrations event db storeSchemas migrations
        = applyMigrationsLoop storeSchemas migrations (nv + 1 - (event.oldVersion + 1))
            (event.oldVersion + 1) db := by
      simp only [applyMigrations, hnv, applyMigrationsFrom]
    rw [happm] at htr happ
    have hmain := (applyMigrationsLoop_spec storeSchemas migrations
        (nv + 1 - (event.oldVersion + 1)) (event.oldVersion + 1) db).1 happ
    have hfuel : nv + 1 - (event.oldVersion + 1) = nv - event.oldVersion := by omega
    rw [htr, hmain, hfuel]
    refine ⟨rfl, List.nodup_range' _ _, List.pairwise_lt_range' _ _, fun v => ?_⟩
    rw [List.mem_range'_1]
    omega

/-- A migration list covering versions 1 and 2 whose steps leave the schema
unchanged and report success. -/
def migTwoSteps : List IDBMigration :=
  [⟨1, some fun d _ _ => (d, true)⟩, ⟨2, some fun d _ _ => (d, true)⟩]

/-- Witness for C1: initializing from scratch at version 2 with a gapless
two-step migration list resolves, invoking versions 1 then 2. -/
theorem upgrade_invokes_migrations_in_range_once_increasing_witness :
    (⟨0, some 2⟩ : VersionChangeEvent).newVersion = some 2
    ∧ (createObjectStoreUpgrade ⟨0, some 2⟩ ⟨[]⟩ [] (some migTwoSteps)).2.isResolved = true
    ∧ ((createObjectStoreUpgrade ⟨0, some 2⟩ ⟨[]⟩ [] (some migTwoSteps)).1
          = List.range' ((⟨0, some 2⟩ : VersionChangeEvent).oldVersion + 1)
              (2 - (⟨0, some 2⟩ : VersionChangeEvent).oldVersion)
        ∧ (createObjectStoreUpgrade ⟨0, some 2⟩ ⟨[]⟩ [] (some migTwoSteps)).1.Nodup
        ∧ List.Pairwise (· < ·) (createObjectStoreUpgrade ⟨0, some 2⟩ ⟨[]⟩ [] (some migTwoSteps)).1
        ∧ ∀ v, v ∈ (createObjectStoreUpgrade ⟨0, some 2⟩ ⟨[]⟩ [] (some migTwoSteps)).1
            ↔ ((⟨0, some 2⟩ : VersionChangeEvent).oldVersion < v ∧ v ≤ 2)) :=
  ⟨rfl, rfl,
    upgrade_invokes_migrations_in_range_once_increasing ⟨0, some 2⟩ ⟨[]⟩ [] migTwoSteps 2 rfl rfl⟩

/-- C2: with a migration list supplied, a missing migration for a required
version, a missing up implementation, or an up call returning a falsy flag
each make initialization reject with the corresponding descriptive error and
abort the upgrade transaction, and no migration targeting a later version is
invoked. -/
theorem upgrade_error_rejects_aborts_and_stops
    (event : VersionChangeEvent) (db : Database) (storeSchemas : List ObjectStoreMeta)
    (migrations : List IDBMigration) (e : MigrationError) (v : Nat)
    (happly : (applyMigrations event db storeSchemas migrations).2.2 = some e)
    (hv : e.version = some v) :
    createObjectStoreUpgrade event db storeSchemas (some migrations)
        = ((applyMigrations event db storeSchemas migrations).1, InitResult.rejected e true)
    ∧ (∀ w ∈ (applyMigrations event db storeSchemas migrations).1, w ≤ v)
    ∧ (e = MigrationError.missingMigration v ∨ e = MigrationError.upNotImplemented v
        ∨ e = MigrationError.migrationFailed v)
    ∧ (e = MigrationError.missingMigration v →
        e.message = "Db configuration should contain a migration for version " ++ toString v)
    ∧ (e = MigrationError.upNotImplemented v →
        e.message = "Up callback hasn\x27t been implemented for migration with version " ++ toString v)
    ∧ (e = MigrationError.migrationFailed v →
        e.message = "Migration for version " ++ toString v ++ " has failed") := by
  have hshape : e = MigrationError.missingMigration v ∨ e = MigrationError.upNotImplemented v
      ∨ e = MigrationError.migrationFailed v := by
    cases e with
    | newVersionNotSet => simp [MigrationError.version] at hv
    | missingMigration w =>
      simp only [MigrationError.version, Option.some_inj] at hv
      exact Or.inl (by rw [hv])
    | upNotImplemented w =>
      simp only [MigrationError.version, Option.some_inj] at hv
      exact Or.inr (Or.inl (by rw [hv]))
    | migrationFailed w =>
      simp only [MigrationError.version, Option.some_inj] at hv
      exact Or.inr (Or.inr (by rw [hv]))
  have hbound : ∀ w ∈ (applyMigrations event db storeSchemas migrations).1, w ≤ v := by
    cases hnv : event.newVersion with
    | none =>
      exfalso
      simp only [applyMigrations, hnv, Option.some_inj] at happly
      rw [← happly] at hv
      simp [MigrationError.version] at hv
    | some nv =>
      have happm : applyMigrations event db storeSchemas migrations
          = applyMigrationsLoop storeSchemas migrations (nv + 1 - (event.oldVersion + 1))
              (event.oldVersion + 1) db := by
        simp only [applyMigrations, hnv, applyMigrationsFrom]
      rw [happm] at happly ⊢
      obtain ⟨v2, hv2, _, hb⟩ := (applyMigrationsLoop_spec storeSchemas migrations
          (nv + 1 - (event.oldVersion + 1)) (event.oldVersion + 1) db).2 e happly
      rw [hv] at hv2
      injection hv2 with hv2
      rw [hv2]
      exact hb
  refine ⟨?_, hbound, hshape, ?_, ?_, ?_⟩
  · simp only [createObjectStoreUpgrade, happly]
  · intro h; rw [h]; rfl
  · intro h; rw [h]; rfl
  · intro h; rw [h]; rfl

/-- A single migration whose up step reports failure. -/
def migFailingStep : List IDBMigration :=
  [⟨1, some fun d _ _ => (d, false)⟩]

/-- Witness for C2: a migration for version 1 whose up step returns false
makes the upgrade reject with the failure error and abort. -/
theorem upgrade_error_rejects_aborts_and_stops_witness :
    (applyMigrations ⟨0, some 1⟩ ⟨[]⟩ [] migFailingStep).2.2
        = some (MigrationError.migrationFailed 1)
    ∧ (MigrationError.migrationFailed 1).version = some 1
    ∧ (createObjectStoreUpgrade ⟨0, some 1⟩ ⟨[]⟩ [] (some migFailingStep)
          = ((applyMigrations ⟨0, some 1⟩ ⟨[]⟩ [] migFailingStep).1,
             InitResult.rejected (MigrationError.migrationFailed 1) true)
        ∧ (∀ w ∈ (applyMigrations ⟨0, some 1⟩ ⟨[]⟩ [] migFailingStep).1, w ≤ 1)
        ∧ (MigrationError.migrationFailed 1 = MigrationError.missingMigration 1
            ∨ MigrationError.migrationFailed 1 = MigrationError.upNotImplemented 1
            ∨ MigrationError.migrationFailed 1 = MigrationError.migrationFailed 1)
        ∧ (MigrationError.migrationFailed 1 = MigrationError.missingMigration 1 →
            (MigrationError.migrationFailed 1).message
              = "Db configuration should contain a migration for version " ++ toString 1)
        ∧ (MigrationError.migrationFailed 1 = MigrationError.upNotImplemented 1 →
            (MigrationError.migrationFailed 1).message
              = "Up callback hasn\x27t been implemented for migration with version " ++ toString 1)
        ∧ (MigrationError.migrationFailed 1 = MigrationError.migrationFailed 1 →
            (MigrationError.migrationFailed 1).message
              = "Migration for version " ++ toString 1 ++ " has failed")) :=
  ⟨rfl, rfl,
    upgrade_error_rejects_aborts_and_stops ⟨0, some 1⟩ ⟨[]⟩ [] migFailingStep
      (MigrationError.migrationFailed 1) 1 rfl rfl⟩

/-- The index-building fold of dmbStep appends exactly the declared indexes. -/
theorem foldl_createIndex (l : List ObjectStoreSchema) :
    ∀ os : ObjectStore,
      l.foldl (fun os schema =>
          { os with indexes := os.indexes ++ [{ name := schema.name, keypath := schema.keypath, unique := schema.unique }] }) os
        = { os with indexes := os.indexes ++ l.map (fun s => { name := s.name, keypath := s.keypath, unique := s.unique }) } := by
  induction l with
  | nil => intro os; simp
  | cons a l ih =>
    intro os
    rw [List.foldl_cons, ih]
    simp

/-- dmbStep leaves the database unchanged when the store name is present. -/
theorem dmbStep_mem {db : Database} {m : ObjectStoreMeta}
    (h : m.store ∈ db.objectStoreNames) : dmbStep db m = db := by
  simp [dmbStep, h]

/-- dmbStep appends the declared store when the store name is absent. -/
theorem dmbStep_not_mem {db : Database} {m : ObjectStoreMeta}
    (h : m.store ∉ db.objectStoreNames) :
    dmbStep db m = ⟨db.stores ++ [storeOfMeta m]⟩ := by
  rw [dmbStep, if_neg h, foldl_createIndex]
  rfl

/-- The store names of a database with appended stores. -/
theorem objectStoreNames_append (l1 l2 : List ObjectStore) :
    Database.objectStoreNames ⟨l1 ++ l2⟩
      = Database.objectStoreNames ⟨l1⟩ ++ l2.map ObjectStore.name := by
  simp [Database.objectStoreNames]

/-- The fold of defaultMigrationBehaviour only appends stores: every store
already present is left untouched, in place. -/
theorem foldl_dmbStep_extends (s : List ObjectStoreMeta) :
    ∀ db : Database, ∃ ext, (s.foldl dmbStep db).stores = db.stores ++ ext := by
  induction s with
  | nil => intro db; exact ⟨[], by simp⟩
  | cons m rest ih =>
    intro db
    rw [List.foldl_cons]
    by_cases hmem : m.store ∈ db.objectStoreNames
    · rw [dmbStep_mem hmem]
      exact ih db
    · rw [dmbStep_not_mem hmem]
      obtain ⟨ext, hext⟩ := ih ⟨db.stores ++ [storeOfMeta m]⟩
      exact ⟨[storeOfMeta m] ++ ext, by rw [hext]; simp⟩

/-- Stores survive the fold of defaultMigrationBehaviour. -/
theorem mem_foldl_dmbStep_of_mem {st : ObjectStore} (s : List ObjectStoreMeta)
    (db : Database) (h : st ∈ db.stores) : st ∈ (s.foldl dmbStep db).stores := by
  obtain ⟨ext, hext⟩ := foldl_dmbStep_extends s db
  rw [hext]
  exact List.mem_append_left ext h

/-- Store names survive the fold of defaultMigrationBehaviour. -/
theorem name_mem_foldl_dmbStep_of_mem {x : String} (s : List ObjectStoreMeta)
    (db : Database) (h : x ∈ db.objectStoreNames) :
    x ∈ (s.foldl dmbStep db).objectStoreNames := by
  obtain ⟨ext, hext⟩ := foldl_dmbStep_extends s db
  show x ∈ (s.foldl dmbStep db).stores.map ObjectStore.name
  rw [hext, List.map_append]
  exact List.mem_append_left _ h

/-- Every declared store name is present after the fold. -/
theorem foldl_dmbStep_creates (s : List ObjectStoreMeta) :
    ∀ db : Database, ∀ m ∈ s, m.store ∈ (s.foldl dmbStep db).objectStoreNames := by
  induction s with
  | nil => intro db m hm; exact absurd hm (List.not_mem_nil m)
  | cons m0 rest ih =>
    intro db m hm
    rw [List.foldl_cons]
    rcases List.mem_cons.mp hm with h | h
    · subst h
      apply name_mem_foldl_dmbStep_of_mem
      by_cases hmem : m.store ∈ db.objectStoreNames
      · rw [dmbStep_mem hmem]; exact hmem
      · rw [dmbStep_not_mem hmem]
        show m.store ∈ (db.stores ++ [storeOfMeta m]).map ObjectStore.name
        simp [storeOfMeta]
    · exact ih (dmbStep db m0) m h

/-- With distinct declared store names, every declared store absent from the
database is created exactly as declared: key configuration and all indexes. -/
theorem foldl_dmbStep_creates_storeOfMeta (s : List ObjectStoreMeta)
    (hnd : (s.map ObjectStoreMeta.store).Nodup) :
    ∀ db : Database, ∀ m ∈ s, m.store ∉ db.objectStoreNames →
      storeOfMeta m ∈ (s.foldl dmbStep db).stores := by
  induction s with
  | nil => intro db m hm; exact absurd hm (List.not_mem_nil m)
  | cons m0 rest ih =>
    intro db m hm habs
    rw [List.foldl_cons]
    rcases List.mem_cons.mp hm with h | h
    · subst h
      apply mem_foldl_dmbStep_of_mem
      rw [dmbStep_not_mem habs]
      exact List.mem_append_right _ (List.mem_singleton.mpr rfl)
    · have hnd0 : m0.store ∉ rest.map ObjectStoreMeta.store := by
        rw [List.map_cons] at hnd
        exact (List.nodup_cons.mp hnd).1
      have hne : m.store ≠ m0.store := by
        intro hEq
        exact hnd0 (hEq ▸ List.mem_map_of_mem ObjectStoreMeta.store h)
      have hnd' : (rest.map ObjectStoreMeta.store).Nodup := by
        rw [List.map_cons] at hnd
        exact (List.nodup_cons.mp hnd).2
      refine ih hnd' (dmbStep db m0) m h ?_
      by_cases hmem : m0.store ∈ db.objectStoreNames
      · rw [dmbStep_mem hmem]; exact habs
      · rw [dmbStep_not_mem hmem]
        show m.store ∉ (db.stores ++ [storeOfMeta m0]).map ObjectStore.name
        rw [List.map_append]
        intro hc
        rcases List.mem_append.mp hc with hc | hc
        · exact habs hc
        · simp only [List.map_cons, List.map_nil, List.mem_singleton, storeOfMeta] at hc
          exact hne hc

/-- When every declared store name is already present, the fold is a no-op. -/
theorem foldl_dmbStep_noop (s : List ObjectStoreMeta) :
    ∀ db : Database, (∀ m ∈ s, m.store ∈ db.objectStoreNames) →
      s.foldl dmbStep db = db := by
  induction s with
  | nil => intro db _; rfl
  | cons m0 rest ih =>
    intro db h
    rw [List.foldl_cons, dmbStep_mem (h m0 (List.mem_cons_self m0 rest))]
    exact ih db (fun m hm => h m (List.mem_cons_of_mem m0 hm))

/-- C3: with no migration list supplied, the default behaviour runs once
during the upgrade event; it returns true, keeps every already-present store
unchanged in place, makes every declared store name present, creates each
absent declared store with its key configuration and every declared index,
and running it again (re-initializing at the same version) changes nothing. -/
theorem defaultMigrationBehaviour_creates_missing_stores
    (db : Database) (s : List ObjectStoreMeta)
    (hnd : (s.map ObjectStoreMeta.store).Nodup) :
    (defaultMigrationBehaviour db s).2 = true
    ∧ (∃ ext, (defaultMigrationBehaviour db s).1.stores = db.stores ++ ext)
    ∧ (∀ m ∈ s, m.store ∈ (defaultMigrationBehaviour db s).1.objectStoreNames)
    ∧ (∀ m ∈ s, m.store ∉ db.objectStoreNames →
        storeOfMeta m ∈ (defaultMigrationBehaviour db s).1.stores)
    ∧ defaultMigrationBehaviour (defaultMigrationBehaviour db s).1 s
        = ((defaultMigrationBehaviour db s).1, true)
    ∧ (∀ event, createObjectStoreUpgrade event db s none
        = ([], InitResult.resolved (defaultMigrationBehaviour db s).1)) := by
  refine ⟨rfl, foldl_dmbStep_extends s db, foldl_dmbStep_creates s db,
    fun m hm habs => foldl_dmbStep_creates_storeOfMeta s hnd db m hm habs, ?_, fun _ => rfl⟩
  show (s.foldl dmbStep (s.foldl dmbStep db), true) = _
  rw [foldl_dmbStep_noop s (s.foldl dmbStep db) (foldl_dmbStep_creates s db)]
  rfl

/-- A concrete schema: one store with one index. -/
def peopleMeta : ObjectStoreMeta :=
  { store := "people"
    storeConfig := { keyPath := "id", autoIncrement := true }
    storeSchema := [{ name := "name", keypath := "name", unique := false }] }

/-- Witness for C3: initializing a fresh database with one declared store
creates it, and the behaviour is idempotent. -/
theorem defaultMigrationBehaviour_creates_missing_stores_witness :
    ([peopleMeta].map ObjectStoreMeta.store).Nodup
    ∧ ((defaultMigrationBehaviour ⟨[]⟩ [peopleMeta]).2 = true
        ∧ (∃ ext, (defaultMigrationBehaviour ⟨[]⟩ [peopleMeta]).1.stores
            = Database.stores ⟨[]⟩ ++ ext)
        ∧ (∀ m ∈ [peopleMeta],
            m.store ∈ (defaultMigrationBehaviour ⟨[]⟩ [peopleMeta]).1.objectStoreNames)
        ∧ (∀ m ∈ [peopleMeta], m.store ∉ Database.objectStoreNames ⟨[]⟩ →
            storeOfMeta m ∈ (defaultMigrationBehaviour ⟨[]⟩ [peopleMeta]).1.stores)
        ∧ defaultMigrationBehaviour (defaultMigrationBehaviour ⟨[]⟩ [peopleMeta]).1 [peopleMeta]
            = ((defaultMigrationBehaviour ⟨[]⟩ [peopleMeta]).1, true)
        ∧ (∀ event, createObjectStoreUpgrade event ⟨[]⟩ [peopleMeta] none
            = ([], InitResult.resolved (defaultMigrationBehaviour ⟨[]⟩ [peopleMeta]).1))) :=
  ⟨by decide,
    defaultMigrationBehaviour_creates_missing_stores ⟨[]⟩ [peopleMeta] (by decide)⟩

/-- The two transaction modes, from enum DBMode of indexed-db.ts. -/
inductive DBMode
  | readonly
  | readwrite
deriving DecidableEq

/-- The opened database a facade operation sees: the names of its object
stores (openDatabase has resolved with this handle). -/
structure OpenDb where
  storeNames : List String
deriving DecidableEq

/-- Observable events of one facade operation of DBOperations, in the order
they happen under the happy-path schedule of the host engine: the
synchronous body of the openDatabase .then callback runs first, then the
request success event fires, then the transaction completion event.
  - rejectCall / resolveCall: the reject/resolve function of the promise executor is invoked
    (the promise settles at the first such call);
  - txStart: the transaction creation on the named store
    (createReadonlyTransaction / createReadwriteTransaction);
  - reqIssued: the store request the body issues;
  - reqSuccess / txComplete: the engine events;
  - cursorSuccess: a cursor request success event, `true` when the cursor is
    exhausted (traversal completion is signaled by a null cursor);
  - cbInvoked: the caller-supplied cursor callback is invoked. -/
inductive Ev
  | rejectCall
  | resolveCall
  | txStart (storeName : String) (mode : DBMode)
  | reqIssued (op : String)
  | reqSuccess
  | txComplete
  | cursorSuccess (done : Bool)
  | cbInvoked
deriving DecidableEq

/-- Whether an event settles the promise. -/
def Ev.isSettle : Ev → Bool
  | Ev.rejectCall => true
  | Ev.resolveCall => true
  | _ => false

/-- The first settlement of the promise: the first resolve/reject call wins. -/
def firstSettle (tr : List Ev) : Option Ev :=
  tr.find? Ev.isSettle

/-- The handler wiring of one facade operation, read off its source in
DBOperations (indexed-db.ts, lines 109-249):
  - validates: the body calls validateBeforeTransaction before opening the
    transaction;
  - mode and requestOp: the transaction mode and the store request issued;
  - resolveOnRequestSuccess: the body sets request.onsuccess to resolve;
  - rejectOnRequestError: the body sets request.onerror to reject;
  - resolveOnTxComplete: the body sets transaction.oncomplete to resolve. -/
structure Wiring where
  validates : Bool
  mode : DBMode
  requestOp : String
  resolveOnRequestSuccess : Bool
  rejectOnRequestError : Bool
  resolveOnTxComplete : Bool
deriving DecidableEq

/-- getAll (lines 111-126): validates, readonly, store.getAll, resolves on
request success, rejects on request error. -/
def getAllWiring : Wiring :=
  { validates := true, mode := DBMode.readonly, requestOp := "getAll"
    resolveOnRequestSuccess := true, rejectOnRequestError := true
    resolveOnTxComplete := false }

/-- getByID (lines 128-141): validates, readonly, store.get, resolves on
request success. -/
def getByIDWiring : Wiring :=
  { validates := true, mode := DBMode.readonly, requestOp := "get"
    resolveOnRequestSuccess := true, rejectOnRequestError := false
    resolveOnTxComplete := false }

/-- getByIndex (lines 161-175): validates, readonly, index.get, resolves on
request success. -/
def getByIndexWiring : Wiring :=
  { validates := true, mode := DBMode.readonly, requestOp := "index.get"
    resolveOnRequestSuccess := true, rejectOnRequestError := false
    resolveOnTxComplete := false }

/-- add (lines 178-193): no validation, readwrite, store.add, resolves on
request success with the new key, rejects on request error. -/
def addWiring : Wiring :=
  { validates := false, mode := DBMode.readwrite, requestOp := "add"
    resolveOnRequestSuccess := true, rejectOnRequestError := true
    resolveOnTxComplete := false }

/-- update (lines 195-210): validates, readwrite, store.put, resolves only on
transaction completion. -/
def updateWiring : Wiring :=
  { validates := true, mode := DBMode.readwrite, requestOp := "put"
    resolveOnRequestSuccess := false, rejectOnRequestError := false
    resolveOnTxComplete := true }

/-- deleteRecord (lines 212-223): validates, readwrite, store.delete,
resolves on request success. -/
def deleteRecordWiring : Wiring :=
  { validates := true, mode := DBMode.readwrite, requestOp := "delete"
    resolveOnRequestSuccess := true, rejectOnRequestError := false
    resolveOnTxComplete := false }

/-- clear (lines 225-237): validates, readwrite, store.clear, resolves only
on transaction completion. -/
def clearWiring : Wiring :=
  { validates := true, mode := DBMode.readwrite, requestOp := "clear"
    resolveOnRequestSuccess := false, rejectOnRequestError := false
    resolveOnTxComplete := true }

/-- The event trace of one facade operation under the happy-path schedule.
Modelled from the spec: validateBeforeTransaction (declared in Utils, not in
src) performs a value-level existence check and calls reject when the named
store is absent, without throwing, and createReadonlyTransaction /
createReadwriteTransaction (not in src) create a transaction on the named
store in the given mode.  The body of each operation then matches its source
in DBOperations: validation (when wired) runs first, the transaction is then
created unconditionally; on a missing store the transaction creation throws
inside the engine, ending the body, so no request events follow. -/
def runOp (w : Wiring) (db : OpenDb) (storeName : String) : List Ev :=
  let validation :=
    if w.validates = true ∧ storeName ∉ db.storeNames then [Ev.rejectCall] else []
  if storeName ∉ db.storeNames then
    validation ++ [Ev.txStart storeName w.mode]
  else
    validation ++ [Ev.txStart storeName w.mode, Ev.reqIssued w.requestOp, Ev.reqSuccess]
      ++ (if w.resolveOnRequestSuccess = true then [Ev.resolveCall] else [])
      ++ [Ev.txComplete]
      ++ (if w.resolveOnTxComplete = true then [Ev.resolveCall] else [])

/-- The cursor request success events of openCursor (indexed-db.ts, lines
151-154): each success event invokes the callback of the caller and then calls
resolve; the cursor advances to the next entry only when the callback asked
it to (cb returns whether it called continue), and the final success event
carries a null cursor (done = true) once the entries are exhausted. -/
def cursorSteps {α : Type} (cb : Option α → Bool) : List α → List Ev
  | [] => [Ev.cursorSuccess true, Ev.cbInvoked, Ev.resolveCall]
  | e :: rest =>
    [Ev.cursorSuccess false, Ev.cbInvoked, Ev.resolveCall]
      ++ (if cb (some e) then cursorSteps cb rest else [])

/-- The event trace of openCursor (indexed-db.ts, lines 143-159): validation,
readonly transaction, store.openCursor, then the cursor success events over
the store entries. -/
def openCursorTrace {α : Type} (db : OpenDb) (storeName : String)
    (entries : List α) (cb : Option α → Bool) : List Ev :=
  if storeName ∉ db.storeNames then
    [Ev.rejectCall, Ev.txStart storeName DBMode.readonly]
  else
    [Ev.txStart storeName DBMode.readonly, Ev.reqIssued "openCursor"]
      ++ cursorSteps cb entries

/-- Whether an event is a cursor success event. -/
def Ev.isCursorSuccess : Ev → Bool
  | Ev.cursorSuccess _ => true
  | _ => false

/-- Records of one object store, as the host engine keeps them.
Modelled from the spec: the storage engine itself is outside this repository;
keys are modelled as naturals and values are abstract. -/
def storeRecords (α : Type) : Type := List (Nat × α)

/-- The get operation of the engine: the record matching the key, or none
(the not-found representation of the environment). -/
def storeGet {α : Type} (recs : List (Nat × α)) (k : Nat) : Option α :=
  (recs.find? (fun p => p.1 == k)).map Prod.snd

/-- The put operation of the engine, as update uses it.  Modelled from the spec: put
semantics, insert or overwrite — an existing record under the key is
replaced, an absent key is appended. -/
def storePut {α : Type} (recs : List (Nat × α)) (k : Nat) (v : α) : List (Nat × α) :=
  if k ∈ recs.map Prod.fst then
    recs.map (fun p => if p.1 = k then (k, v) else p)
  else
    recs ++ [(k, v)]

/-- A key absent from the record keys is not found. -/
theorem find?_eq_none_of_not_mem_keys {α : Type} {recs : List (Nat × α)} {k : Nat}
    (h : k ∉ recs.map Prod.fst) :
    recs.find? (fun p => p.1 == k) = none := by
  induction recs with
  | nil => rfl
  | cons p t ih =>
    simp only [List.map_cons, List.mem_cons] at h
    push_neg at h
    rw [List.find?_cons_of_neg t (by simpa using Ne.symm h.1)]
    exact ih h.2

/-- Reading back the key just written by put yields the written value. -/
theorem storeGet_storePut_same {α : Type} (recs : List (Nat × α)) (k : Nat) (v : α) :
    storeGet (storePut recs k v) k = some v := by
  by_cases hmem : k ∈ recs.map Prod.fst
  · rw [storePut, if_pos hmem]
    induction recs with
    | nil => simp at hmem
    | cons p t ih =>
      by_cases hp : p.1 = k
      · simp [storeGet, hp]
      · simp only [List.map_cons, List.mem_cons] at hmem
        rcases hmem with h | h
        · exact absurd h.symm hp
        · simp only [List.map_cons, if_neg hp]
          rw [storeGet, List.find?_cons_of_neg _ (by simpa using hp)]
          exact ih h
  · rw [storePut, if_neg hmem, storeGet, List.find?_append,
      find?_eq_none_of_not_mem_keys hmem]
    simp

/-- put leaves the records under every other key unchanged. -/
theorem storeGet_storePut_other {α : Type} (recs : List (Nat × α)) (k k2 : Nat) (v : α)
    (hne : k2 ≠ k) :
    storeGet (storePut recs k v) k2 = storeGet recs k2 := by
  by_cases hmem : k ∈ recs.map Prod.fst
  · rw [storePut, if_pos hmem]
    clear hmem
    induction recs with
    | nil => rfl
    | cons p t ih =>
      by_cases hp : p.1 = k
      · simp only [List.map_cons, if_pos hp]
        rw [storeGet, List.find?_cons_of_neg _ (by simpa using Ne.symm hne),
          storeGet, List.find?_cons_of_neg _ (by simp [hp]; omega)]
        exact ih
      · simp only [List.map_cons, if_neg hp]
        by_cases hp2 : p.1 = k2
        · simp [storeGet, hp2]
        · rw [storeGet, List.find?_cons_of_neg _ (by simpa using hp2),
            storeGet, List.find?_cons_of_neg _ (by simpa using hp2)]
          exact ih
  · rw [storePut, if_neg hmem, storeGet, List.find?_append]
    have : List.find? (fun p => p.1 == k2) [(k, v)] = none := by
      simp
      omega
    rw [this, storeGet]
    simp

/-- put on a present key overwrites in place: the key sequence is unchanged. -/
theorem storePut_keys_of_mem {α : Type} (recs : List (Nat × α)) (k : Nat) (v : α)
    (h : k ∈ recs.map Prod.fst) :
    (storePut recs k v).map Prod.fst = recs.map Prod.fst := by
  rw [storePut, if_pos h, List.map_map]
  refine List.map_congr_left ?_
  intro p _
  by_cases hp : p.1 = k
  · simp [hp]
  · simp [hp]

/-- put on an absent key appends the new record. -/
theorem storePut_not_mem {α : Type} (recs : List (Nat × α)) (k : Nat) (v : α)
    (h : k ∉ recs.map Prod.fst) :
    storePut recs k v = recs ++ [(k, v)] := by
  rw [storePut, if_neg h]

/-- C5: update has put (upsert) semantics — the engine put inserts on an
absent key and overwrites in place on a present key, and a subsequent get in
a new transaction reads the written value — and the update promise resolves
only when the whole read-write transaction completes: its only settlement is
the resolve call placed after the transaction completion event, not one at
the put request success. -/
theorem update_upserts_and_resolves_on_tx_complete {α : Type}
    (db : OpenDb) (s : String) (hs : s ∈ db.storeNames)
    (recs : List (Nat × α)) (k : Nat) (v : α) :
    runOp updateWiring db s
      = [Ev.txStart s DBMode.readwrite, Ev.reqIssued "put", Ev.reqSuccess,
         Ev.txComplete, Ev.resolveCall]
    ∧ (∃ pre, runOp updateWiring db s = pre ++ [Ev.txComplete, Ev.resolveCall]
        ∧ ∀ e ∈ pre, e.isSettle = false)
    ∧ storeGet (storePut recs k v) k = some v
    ∧ (k ∉ recs.map Prod.fst → storePut recs k v = recs ++ [(k, v)])
    ∧ (k ∈ recs.map Prod.fst → (storePut recs k v).map Prod.fst = recs.map Prod.fst)
    ∧ (∀ k2, k2 ≠ k → storeGet (storePut recs k v) k2 = storeGet recs k2) := by
  have htr : runOp updateWiring db s
      = [Ev.txStart s DBMode.readwrite, Ev.reqIssued "put", Ev.reqSuccess,
         Ev.txComplete, Ev.resolveCall] := by
    simp [runOp, updateWiring, hs]
  refine ⟨htr, ?_, storeGet_storePut_same recs k v,
    storePut_not_mem recs k v, storePut_keys_of_mem recs k v,
    fun k2 hne => storeGet_storePut_other recs k k2 v hne⟩
  refine ⟨[Ev.txStart s DBMode.readwrite, Ev.reqIssued "put", Ev.reqSuccess], by rw [htr]; rfl, ?_⟩
  intro e he
  simp only [List.mem_cons, List.not_mem_nil, or_false] at he
  rcases he with h | h | h <;> rw [h] <;> rfl

/-- Witness for C5: updating key 2 with value 20 in a one-record store. -/
theorem update_upserts_and_resolves_on_tx_complete_witness :
    "people" ∈ OpenDb.storeNames ⟨["people"]⟩
    ∧ (runOp updateWiring ⟨["people"]⟩ "people"
          = [Ev.txStart "people" DBMode.readwrite, Ev.reqIssued "put", Ev.reqSuccess,
             Ev.txComplete, Ev.resolveCall]
        ∧ (∃ pre, runOp updateWiring ⟨["people"]⟩ "people"
              = pre ++ [Ev.txComplete, Ev.resolveCall]
            ∧ ∀ e ∈ pre, e.isSettle = false)
        ∧ storeGet (storePut [(1, 10)] 2 20) 2 = some 20
        ∧ (2 ∉ ([(1, 10)] : List (Nat × Nat)).map Prod.fst →
            storePut [(1, 10)] 2 20 = [(1, 10)] ++ [(2, 20)])
        ∧ (2 ∈ ([(1, 10)] : List (Nat × Nat)).map Prod.fst →
            (storePut [(1, 10)] 2 20).map Prod.fst = ([(1, 10)] : List (Nat × Nat)).map Prod.fst)
        ∧ (∀ k2, k2 ≠ 2 → storeGet (storePut [(1, 10)] 2 20) k2 = storeGet [(1, 10)] k2)) :=
  ⟨by decide,
    update_upserts_and_resolves_on_tx_complete ⟨["people"]⟩ "people" (by decide) [(1, 10)] 2 20⟩

/-- Counterexample for C4: getAll on a database without the requested store
does call reject first (its promise settles rejected), yet the transaction
on that store is still started afterwards — the claim that no transaction is
started on that store is false. -/
theorem getAll_missing_store_still_starts_transaction_cex :
    firstSettle (runOp getAllWiring ⟨[]⟩ "missing") = some Ev.rejectCall
    ∧ Ev.txStart "missing" DBMode.readonly ∈ runOp getAllWiring ⟨[]⟩ "missing" := by
  decide

/-- C4 (amended): every read operation (getAll, getByID, getByIndex,
openCursor) invoked with a store name not present rejects immediately via
the value-level existence check — the reject call is the first event and the
promise settles rejected — but the body then still attempts to create a
transaction on that store. -/
theorem read_ops_missing_store_reject_first_then_start_transaction
    (db : OpenDb) (s : String) (hs : s ∉ db.storeNames) :
    runOp getAllWiring db s = [Ev.rejectCall, Ev.txStart s DBMode.readonly]
    ∧ runOp getByIDWiring db s = [Ev.rejectCall, Ev.txStart s DBMode.readonly]
    ∧ runOp getByIndexWiring db s = [Ev.rejectCall, Ev.txStart s DBMode.readonly]
    ∧ (∀ (entries : List Nat) (cb : Option Nat → Bool),
        openCursorTrace db s entries cb = [Ev.rejectCall, Ev.txStart s DBMode.readonly])
    ∧ firstSettle (runOp getAllWiring db s) = some Ev.rejectCall := by
  refine ⟨?_, ?_, ?_, ?_, ?_⟩
  · simp [runOp, getAllWiring, hs]
  · simp [runOp, getByIDWiring, hs]
  · simp [runOp, getByIndexWiring, hs]
  · intro entries cb
    simp [openCursorTrace, hs]
  · have h1 : runOp getAllWiring db s = [Ev.rejectCall, Ev.txStart s DBMode.readonly] := by
      simp [runOp, getAllWiring, hs]
    rw [h1]
    rfl

/-- Witness for C4 (amended): the empty database has no store "people". -/
theorem read_ops_missing_store_reject_first_then_start_transaction_witness :
    "people" ∉ OpenDb.storeNames ⟨[]⟩
    ∧ (runOp getAllWiring ⟨[]⟩ "people"
          = [Ev.rejectCall, Ev.txStart "people" DBMode.readonly]
        ∧ runOp getByIDWiring ⟨[]⟩ "people"
          = [Ev.rejectCall, Ev.txStart "people" DBMode.readonly]
        ∧ runOp getByIndexWiring ⟨[]⟩ "people"
          = [Ev.rejectCall, Ev.txStart "people" DBMode.readonly]
        ∧ (∀ (entries : List Nat) (cb : Option Nat → Bool),
            openCursorTrace ⟨[]⟩ "people" entries cb
              = [Ev.rejectCall, Ev.txStart "people" DBMode.readonly])
        ∧ firstSettle (runOp getAllWiring ⟨[]⟩ "people") = some Ev.rejectCall) :=
  ⟨by decide,
    read_ops_missing_store_reject_first_then_start_transaction ⟨[]⟩ "people" (by decide)⟩

/-- C10: add is the only facade operation that performs no store-existence
validation — on a missing store its trace opens the read-write transaction
with no reject call — whereas getAll, getByID, getByIndex, openCursor,
update, deleteRecord and clear each call validateBeforeTransaction first,
so their traces begin with the validation reject. -/
theorem add_skips_validation_all_others_validate
    (db : OpenDb) (s : String) (hs : s ∉ db.storeNames) :
    runOp addWiring db s = [Ev.txStart s DBMode.readwrite]
    ∧ Ev.rejectCall ∉ runOp addWiring db s
    ∧ (runOp getAllWiring db s).head? = some Ev.rejectCall
    ∧ (runOp getByIDWiring db s).head? = some Ev.rejectCall
    ∧ (runOp getByIndexWiring db s).head? = some Ev.rejectCall
    ∧ (∀ (entries : List Nat) (cb : Option Nat → Bool),
        (openCursorTrace db s entries cb).head? = some Ev.rejectCall)
    ∧ (runOp updateWiring db s).head? = some Ev.rejectCall
    ∧ (runOp deleteRecordWiring db s).head? = some Ev.rejectCall
    ∧ (runOp clearWiring db s).head? = some Ev.rejectCall := by
  have hadd : runOp addWiring db s = [Ev.txStart s DBMode.readwrite] := by
    simp [runOp, addWiring, hs]
  refine ⟨hadd, ?_, ?_, ?_, ?_, ?_, ?_, ?_, ?_⟩
  · rw [hadd]
    simp
  · simp [runOp, getAllWiring, hs]
  · simp [runOp, getByIDWiring, hs]
  · simp [runOp, getByIndexWiring, hs]
  · intro entries cb
    simp [openCursorTrace, hs]
  · simp [runOp, updateWiring, hs]
  · simp [runOp, deleteRecordWiring, hs]
  · simp [runOp, clearWiring, hs]

/-- Witness for C10: a database with a store "a" but no store "b". -/
theorem add_skips_validation_all_others_validate_witness :
    "b" ∉ OpenDb.storeNames ⟨["a"]⟩
    ∧ (runOp addWiring ⟨["a"]⟩ "b" = [Ev.txStart "b" DBMode.readwrite]
        ∧ Ev.rejectCall ∉ runOp addWiring ⟨["a"]⟩ "b"
        ∧ (runOp getAllWiring ⟨["a"]⟩ "b").head? = some Ev.rejectCall
        ∧ (runOp getByIDWiring ⟨["a"]⟩ "b").head? = some Ev.rejectCall
        ∧ (runOp getByIndexWiring ⟨["a"]⟩ "b").head? = some Ev.rejectCall
        ∧ (∀ (entries : List Nat) (cb : Option Nat → Bool),
            (openCursorTrace ⟨["a"]⟩ "b" entries cb).head? = some Ev.rejectCall)
        ∧ (runOp updateWiring ⟨["a"]⟩ "b").head? = some Ev.rejectCall
        ∧ (runOp deleteRecordWiring ⟨["a"]⟩ "b").head? = some Ev.rejectCall
        ∧ (runOp clearWiring ⟨["a"]⟩ "b").head? = some Ev.rejectCall) :=
  ⟨by decide, add_skips_validation_all_others_validate ⟨["a"]⟩ "b" (by decide)⟩

/-- The callback is invoked exactly once per cursor success event. -/
theorem cursorSteps_count {α : Type} (cb : Option α → Bool) (entries : List α) :
    (cursorSteps cb entries).countP Ev.isCursorSuccess
      = (cursorSteps cb entries).countP (fun e => e == Ev.cbInvoked) := by
  induction entries with
  | nil => rfl
  | cons e rest ih =>
    simp only [cursorSteps]
    cases hcb : cb (some e) with
    | false =>
      simp [hcb]
      rfl
    | true =>
      simp only [hcb, if_true, List.countP_append]
      rw [ih]
      rfl

/-- Counterexample for C6: with two entries and a callback that never
advances the cursor, the promise resolves although traversal completion
(the null-cursor success event) is never signaled; so resolution does not
wait for traversal completion. -/
theorem openCursor_resolves_before_traversal_complete_cex :
    Ev.resolveCall ∈ openCursorTrace ⟨["s"]⟩ "s" [0, 1] (fun _ => false)
    ∧ Ev.cursorSuccess true ∉ openCursorTrace ⟨["s"]⟩ "s" [0, 1] (fun _ => false)
    ∧ firstSettle (openCursorTrace ⟨["s"]⟩ "s" [0, 1] (fun _ => false))
        = some Ev.resolveCall := by
  decide

/-- C6 (amended): the openCursor promise resolves on the first cursor
success event — which signals traversal completion only when the store is
empty — immediately after the callback of the caller is invoked for that event;
the callback is invoked on each cursor success event before the resolve call
of that event, and the caller is responsible for advancing or terminating
the cursor: traversal continues past an entry exactly when the callback
advanced the cursor on it. -/
theorem openCursor_resolves_on_first_cursor_success {α : Type}
    (db : OpenDb) (s : String) (hs : s ∈ db.storeNames)
    (entries : List α) (cb : Option α → Bool) :
    (openCursorTrace db s entries cb).take 5
      = [Ev.txStart s DBMode.readonly, Ev.reqIssued "openCursor",
         Ev.cursorSuccess entries.isEmpty, Ev.cbInvoked, Ev.resolveCall]
    ∧ (openCursorTrace db s entries cb).countP Ev.isCursorSuccess
        = (openCursorTrace db s entries cb).countP (fun e => e == Ev.cbInvoked)
    ∧ (∀ e rest, entries = e :: rest → cb (some e) = false →
        openCursorTrace db s entries cb
          = [Ev.txStart s DBMode.readonly, Ev.reqIssued "openCursor",
             Ev.cursorSuccess false, Ev.cbInvoked, Ev.resolveCall])
    ∧ (∀ e rest, entries = e :: rest → cb (some e) = true →
        openCursorTrace db s entries cb
          = [Ev.txStart s DBMode.readonly, Ev.reqIssued "openCursor",
             Ev.cursorSuccess false, Ev.cbInvoked, Ev.resolveCall] ++ cursorSteps cb rest) := by
  have hbase : openCursorTrace db s entries cb
      = [Ev.txStart s DBMode.readonly, Ev.reqIssued "openCursor"] ++ cursorSteps cb entries := by
    simp [openCursorTrace, hs]
  refine ⟨?_, ?_, ?_, ?_⟩
  · rw [hbase]
    cases entries with
    | nil => rfl
    | cons e rest =>
      simp only [cursorSteps, List.isEmpty_cons]
      cases hcb : cb (some e) <;> simp [hcb]
  · rw [hbase]
    simp only [List.countP_append]
    rw [cursorSteps_count]
    rfl
  · intro e rest hent hcb
    rw [hbase, hent]
    simp [cursorSteps, hcb]
  · intro e rest hent hcb
    rw [hbase, hent]
    simp [cursorSteps, hcb]

/-- Witness for C6 (amended): a single-entry store with a non-advancing
callback. -/
theorem openCursor_resolves_on_first_cursor_success_witness :
    "s" ∈ OpenDb.storeNames ⟨["s"]⟩
    ∧ ((openCursorTrace ⟨["s"]⟩ "s" [(0 : Nat)] (fun _ => false)).take 5
          = [Ev.txStart "s" DBMode.readonly, Ev.reqIssued "openCursor",
             Ev.cursorSuccess (List.isEmpty [(0 : Nat)]), Ev.cbInvoked, Ev.resolveCall]
        ∧ (openCursorTrace ⟨["s"]⟩ "s" [(0 : Nat)] (fun _ => false)).countP Ev.isCursorSuccess
            = (openCursorTrace ⟨["s"]⟩ "s" [(0 : Nat)] (fun _ => false)).countP
                (fun e => e == Ev.cbInvoked)
        ∧ (∀ e rest, [(0 : Nat)] = e :: rest → (fun (_ : Option Nat) => false) (some e) = false →
            openCursorTrace ⟨["s"]⟩ "s" [(0 : Nat)] (fun _ => false)
              = [Ev.txStart "s" DBMode.readonly, Ev.reqIssued "openCursor",
                 Ev.cursorSuccess false, Ev.cbInvoked, Ev.resolveCall])
        ∧ (∀ e rest, [(0 : Nat)] = e :: rest → (fun (_ : Option Nat) => false) (some e) = true →
            openCursorTrace ⟨["s"]⟩ "s" [(0 : Nat)] (fun _ => false)
              = [Ev.txStart "s" DBMode.readonly, Ev.reqIssued "openCursor",
                 Ev.cursorSuccess false, Ev.cbInvoked, Ev.resolveCall]
                ++ cursorSteps (fun _ => false) rest)) :=
  ⟨by decide,
    openCursor_resolves_on_first_cursor_success ⟨["s"]⟩ "s" (by decide)
      [(0 : Nat)] (fun _ => false)⟩

/-- Observable events of one openDatabase call (indexed-db.ts, lines 15-32):
the upgrade callback invocation (with the value of the local `db` variable it
is handed at that moment) and the resolution of the returned promise with
the opened handle. -/
inductive OpenEv
  | upgradeCbInvoked (forwardedDb : Option Nat)
  | resolvedWith (db : Nat)
deriving DecidableEq

/-- The event trace of openDatabase(dbName, version, upgradeCallback).
The local variable `db` of openDatabase is declared unassigned and is set
only inside request.onsuccess (db = request.result, then resolve(db)).  When
the requested version exceeds the stored version the engine fires
onupgradeneeded before onsuccess, and that handler calls
upgradeCallback(event, db) with the current value of `db`.  `result` stands
for request.result, the opened (in-progress) handle. -/
def openDatabaseTrace (storedVersion version : Nat) (result : Nat)
    (hasUpgradeCallback : Bool) : List OpenEv :=
  let dbVar : Option Nat := none
  let upgradeEvents :=
    if storedVersion < version ∧ hasUpgradeCallback = true then
      [OpenEv.upgradeCbInvoked dbVar]
    else []
  let dbVar := some result
  upgradeEvents ++ [OpenEv.resolvedWith (dbVar.getD result)]

/-- C7 (code bug): when the requested version exceeds the stored version and
an upgrade callback is supplied, the callback is indeed invoked before the
open promise resolves, but the database argument it is handed is none
(undefined) — not the in-progress handle — because the local `db` variable
is only assigned in the onsuccess handler, which fires after onupgradeneeded. -/
theorem openDatabase_upgrade_callback_gets_undefined_handle
    (storedVersion version result : Nat) (h : storedVersion < version) :
    openDatabaseTrace storedVersion version result true
      = [OpenEv.upgradeCbInvoked none, OpenEv.resolvedWith result]
    ∧ OpenEv.upgradeCbInvoked (some result) ∉ openDatabaseTrace storedVersion version result true := by
  have htr : openDatabaseTrace storedVersion version result true
      = [OpenEv.upgradeCbInvoked none, OpenEv.resolvedWith result] := by
    simp [openDatabaseTrace, h]
  refine ⟨htr, ?_⟩
  rw [htr]
  simp

/-- Witness for C7: opening at version 2 over a stored version 0. -/
theorem openDatabase_upgrade_callback_gets_undefined_handle_witness :
    0 < 2
    ∧ (openDatabaseTrace 0 2 7 true
          = [OpenEv.upgradeCbInvoked none, OpenEv.resolvedWith 7]
        ∧ OpenEv.upgradeCbInvoked (some 7) ∉ openDatabaseTrace 0 2 7 true) :=
  ⟨by decide, openDatabase_upgrade_callback_gets_undefined_handle 0 2 7 (by decide)⟩

/-- The process-wide configuration singleton of indexed-hooks.ts (line 50):
name and version start as null, and Object.freeze makes later assignments
silent no-ops. -/
structure IndexeddbConfiguration where
  version : Option Nat
  name : Option String
  frozen : Bool
deriving DecidableEq

/-- The initial configuration: { version: null, name: null }, not frozen. -/
def initialConfiguration : IndexeddbConfiguration :=
  { version := none, name := none, frozen := false }

/-- Assignment to indexeddbConfiguration.name: a silent no-op once frozen. -/
def setConfigName (cfg : IndexeddbConfiguration) (n : String) : IndexeddbConfiguration :=
  if cfg.frozen then cfg else { cfg with name := some n }

/-- Assignment to indexeddbConfiguration.version: a silent no-op once frozen. -/
def setConfigVersion (cfg : IndexeddbConfiguration) (v : Nat) : IndexeddbConfiguration :=
  if cfg.frozen then cfg else { cfg with version := some v }

/-- Object.freeze(indexeddbConfiguration). -/
def freezeConfig (cfg : IndexeddbConfiguration) : IndexeddbConfiguration :=
  { cfg with frozen := true }

/-- JavaScript truthiness of the stored name: null and the empty string are
falsy. -/
def nameFalsy : Option String → Bool
  | none => true
  | some s => s == ""

/-- JavaScript truthiness of the stored version: null and 0 are falsy. -/
def versionFalsy : Option Nat → Bool
  | none => true
  | some v => v == 0

/-- initDB (indexed-hooks.ts, lines 52-57): assign name and version, freeze
the configuration, then await CreateObjectStore.  `createResolves` stands
for the outcome of that awaited call; the configuration component of the
result does not depend on it, since the assignments and the freeze happen
before the await. -/
def initDB (cfg : IndexeddbConfiguration) (name : String) (version : Nat)
    (createResolves : Bool) : IndexeddbConfiguration × Bool :=
  let cfg := setConfigName cfg name
  let cfg := setConfigVersion cfg version
  let cfg := freezeConfig cfg
  (cfg, createResolves)

/-- useIndexedDB (indexed-hooks.ts, lines 59-75): throw the configuration
error when the stored name or version is falsy, otherwise return the
DBOperations bound to (name, version, objectStore). -/
def useIndexedDB (cfg : IndexeddbConfiguration) (objectStore : String) :
    Except String (Option String × Option Nat × String) :=
  if nameFalsy cfg.name || versionFalsy cfg.version then
    Except.error "Please, initialize the DB before the use."
  else
    Except.ok (cfg.name, cfg.version, objectStore)

/-- C8: calling useIndexedDB before initDB has set the configuration throws
synchronously with the configuration error message, for any requested store. -/
theorem useIndexedDB_before_init_throws_config_error (objectStore : String) :
    useIndexedDB initialConfiguration objectStore
      = Except.error "Please, initialize the DB before the use." := rfl

/-- Counterexample for C9: initDB with the empty string as the database name
(a legal value the engine accepts) sets and freezes the configuration, yet a
subsequent useIndexedDB call still throws the pre-initialization error,
because the truthiness check treats the empty name as unset. -/
theorem initDB_empty_name_useIndexedDB_still_throws_cex :
    useIndexedDB (initDB initialConfiguration "" 1 false).1 "notes"
      = Except.error "Please, initialize the DB before the use." := rfl

/-- C9 (amended): initDB sets and freezes the configuration before awaiting
the store creation/migration, so the resulting configuration does not depend
on that outcome; once frozen it can never change (assignments and further
initDB calls are no-ops); and provided the supplied name is non-empty and
the version non-zero (the truthiness the check requires), subsequent
useIndexedDB calls succeed — they do not throw the pre-initialization error
— even when the awaited creation rejects. -/
theorem initDB_freezes_config_before_await
    (n : String) (v : Nat) (hn : n ≠ "") (hv : v ≠ 0) :
    (∀ o, (initDB initialConfiguration n v o).1
        = { version := some v, name := some n, frozen := true })
    ∧ (∀ cfg o n2 v2,
        setConfigName (initDB cfg n v o).1 n2 = (initDB cfg n v o).1
        ∧ setConfigVersion (initDB cfg n v o).1 v2 = (initDB cfg n v o).1
        ∧ (initDB (initDB cfg n v o).1 n2 v2 o).1 = (initDB cfg n v o).1)
    ∧ (∀ o objectStore, useIndexedDB (initDB initialConfiguration n v o).1 objectStore
        = Except.ok (some n, some v, objectStore)) := by
  refine ⟨fun o => rfl, ?_, ?_⟩
  · intro cfg o n2 v2
    by_cases hf : cfg.frozen
    · refine ⟨?_, ?_, ?_⟩ <;>
        simp [initDB, setConfigName, setConfigVersion, freezeConfig, hf]
    · refine ⟨?_, ?_, ?_⟩ <;>
        simp [initDB, setConfigName, setConfigVersion, freezeConfig, hf]
  · intro o objectStore
    have h1 : (initDB initialConfiguration n v o).1
        = { version := some v, name := some n, frozen := true } := rfl
    rw [h1, useIndexedDB]
    have hnf : nameFalsy (some n) = false := by
      simp [nameFalsy]
      exact hn
    have hvf : versionFalsy (some v) = false := by
      simp [versionFalsy]
      exact hv
    simp only [hnf, hvf, Bool.or_self, Bool.false_eq_true, if_false]

/-- Witness for C9 (amended): initializing with name db and version 1. -/
theorem initDB_freezes_config_before_await_witness :
    ("db" : String) ≠ ""
    ∧ (1 : Nat) ≠ 0
    ∧ ((∀ o, (initDB initialConfiguration "db" 1 o).1
          = { version := some 1, name := some "db", frozen := true })
        ∧ (∀ cfg o n2 v2,
            setConfigName (initDB cfg "db" 1 o).1 n2 = (initDB cfg "db" 1 o).1
            ∧ setConfigVersion (initDB cfg "db" 1 o).1 v2 = (initDB cfg "db" 1 o).1
            ∧ (initDB (initDB cfg "db" 1 o).1 n2 v2 o).1 = (initDB cfg "db" 1 o).1)
        ∧ (∀ o objectStore, useIndexedDB (initDB initialConfiguration "db" 1 o).1 objectStore
            = Except.ok (some "db", some 1, objectStore))) :=
  ⟨by decide, by decide, initDB_freezes_config_before_await "db" 1 (by decide) (by decide)⟩
